import Mathlib

/-!
Verification of the `DataManager` repository of the MBO management system
(`src/models/data_manager.py`).

Modelling conventions:
- Python dicts (which preserve insertion order) are association lists
  `List (String × α)` with the usual lookup / insert-or-overwrite / delete
  operations (`dictGet`, `dictSet`, `dictDel`).
- Python floats are modelled as rationals `ℚ`; all operations the claims
  exercise (sums, `min`-capping at 100, weighted averages) are exact on the
  values involved.
- `uuid.uuid4()` and `datetime.now().isoformat()` are nondeterministic inputs
  and are passed as explicit arguments.
- File I/O is abstracted: `save_data` is modelled as a successful write that
  increments a save counter, so "persists" and "does not persist" are
  observable in the state.
- The JSON text codec (`json.dumps` / `json.loads`) is the Python standard
  library, not repository code; it is modelled at the level of parsed JSON
  trees (`PyValue`): a parse failure is `none`, a success is `some` tree.
  Operations of the repository that run on raw parsed values before any shape
  is known (`import_data`, `_migrate_data_v1_to_v2`) are embedded over
  `PyValue` in an `Except`-monad where `Except.error` models an uncaught
  Python exception.
-/

/-- One achievement item, as stored in `achievements[goal_id]["items"]`. -/
structure AchievementItem where
  id : String
  content : String
  percentage : ℚ
  created_at : String
  updated_at : Option String := none
  deriving Repr, DecidableEq

/-- The per-goal achievement record `{"items": [...], "total_percentage": p}`. -/
structure Achievement where
  items : List AchievementItem
  total_percentage : ℚ
  deriving Repr, DecidableEq

/-- A goal, as stored in a period's `"goals"` list. -/
structure Goal where
  id : String
  title : String
  weight : ℤ
  deadline : String
  description : String
  created_at : String
  deriving Repr, DecidableEq

/-- One period's data: `{"goals": [...], "achievements": {...}, "created_at": t}`. -/
structure Period where
  goals : List Goal
  achievements : List (String × Achievement)
  created_at : String
  deriving Repr, DecidableEq

/-- The `"settings"` object. -/
structure Settings where
  claude_api_key : String
  deriving Repr, DecidableEq

/-- The whole v2 document held in `self.data`. -/
structure Document where
  periods : List (String × Period)
  current_period : Option String
  settings : Settings
  version : String
  deriving Repr, DecidableEq

/-- The `DataManager` state: the in-memory document plus a counter of
successful `save_data` calls (file output abstracted as reliable). -/
structure DMState where
  data : Document
  saves : ℕ
  deriving Repr, DecidableEq

/-- Python dict lookup `d.get(k)` on an insertion-ordered association list. -/
def dictGet {α : Type} (kvs : List (String × α)) (k : String) : Option α :=
  match kvs with
  | [] => none
  | (k', v) :: rest => if k' = k then some v else dictGet rest k

/-- Python dict assignment `d[k] = v`: overwrite in place if the key exists,
else append at the end (dicts preserve insertion order). -/
def dictSet {α : Type} (kvs : List (String × α)) (k : String) (v : α) :
    List (String × α) :=
  match kvs with
  | [] => [(k, v)]
  | (k', v') :: rest =>
      if k' = k then (k', v) :: rest else (k', v') :: dictSet rest k v

/-- Python `del d[k]` (on dicts keys are unique; deleting an absent key is the
identity here, matching the guarded `if k in d: del d[k]` uses in the source). -/
def dictDel {α : Type} (kvs : List (String × α)) (k : String) :
    List (String × α) :=
  match kvs with
  | [] => []
  | (k', v') :: rest =>
      if k' = k then rest else (k', v') :: dictDel rest k

theorem dictGet_dictSet_self {α : Type} (kvs : List (String × α)) (k : String)
    (v : α) : dictGet (dictSet kvs k v) k = some v := by
  induction kvs with
  | nil => simp [dictGet, dictSet]
  | cons hd tl ih =>
      obtain ⟨k', v'⟩ := hd
      by_cases h : k' = k
      · simp [dictGet, dictSet, h]
      · simp [dictGet, dictSet, h, ih]

theorem dictGet_dictSet_ne {α : Type} (kvs : List (String × α)) (k k' : String)
    (v : α) (h : k ≠ k') : dictGet (dictSet kvs k v) k' = dictGet kvs k' := by
  induction kvs with
  | nil => simp [dictGet, dictSet, h]
  | cons hd tl ih =>
      obtain ⟨k0, v0⟩ := hd
      by_cases h0 : k0 = k
      · subst h0
        simp [dictGet, dictSet, h]
      · simp [dictGet, dictSet, h0, ih]

theorem dictGet_dictDel_self {α : Type} (kvs : List (String × α)) (k : String)
    (huniq : (kvs.map Prod.fst).Nodup) : dictGet (dictDel kvs k) k = none := by
  induction kvs with
  | nil => simp [dictGet, dictDel]
  | cons hd tl ih =>
      obtain ⟨k', v'⟩ := hd
      simp only [List.map_cons, List.nodup_cons] at huniq
      by_cases h : k' = k
      · subst h
        simp only [dictDel, if_pos rfl]
        -- k' no longer occurs in tl, so lookup fails
        clear ih
        induction tl with
        | nil => simp [dictGet]
        | cons hd2 tl2 ih2 =>
            obtain ⟨k2, v2⟩ := hd2
            simp only [List.map_cons, List.mem_cons, List.nodup_cons] at huniq
            have hk2 : k2 ≠ k' := by
              intro he
              exact huniq.1 (Or.inl he.symm)
            simp only [dictGet, if_neg hk2]
            exact ih2 ⟨fun hm => huniq.1 (Or.inr hm), huniq.2.2⟩
      · simp only [dictDel, if_neg h, dictGet, if_neg h]
        exact ih huniq.2

/-- If the key already maps to exactly this value, Python's `d[k] = v` leaves
the dict unchanged. -/
theorem dictSet_eq_self {α : Type} (kvs : List (String × α)) (k : String)
    (v : α) (h : dictGet kvs k = some v) : dictSet kvs k v = kvs := by
  induction kvs with
  | nil => simp [dictGet] at h
  | cons hd tl ih =>
      obtain ⟨k', v'⟩ := hd
      by_cases hk : k' = k
      · simp only [dictGet, if_pos hk] at h
        obtain rfl : v' = v := by injection h
        simp [dictSet, hk]
      · simp only [dictGet, if_neg hk] at h
        simp [dictSet, hk, ih h]

theorem dictGet_eq_none_of_not_mem_keys {α : Type} (kvs : List (String × α))
    (k : String) (h : k ∉ kvs.map Prod.fst) : dictGet kvs k = none := by
  induction kvs with
  | nil => simp [dictGet]
  | cons hd tl ih =>
      obtain ⟨k', v'⟩ := hd
      simp only [List.map_cons, List.mem_cons] at h
      push_neg at h
      have hne : k' ≠ k := fun he => h.1 he.symm
      simp only [dictGet, if_neg hne]
      exact ih h.2

/-! ### Repository operations (typed layer), from `src/models/data_manager.py` -/

/-- `save_data`: writes `self.data` to disk and returns `True`; the write is
modelled as reliable and counted. -/
def save_data (st : DMState) : DMState × Bool :=
  ({ st with saves := st.saves + 1 }, true)

/-- `get_current_period_data`: returns the current period's dict if
`self.data["current_period"]` is truthy (a non-empty name) and is a key of
`self.data["periods"]`, else `None`. -/
def get_current_period_data (d : Document) : Option Period :=
  match d.current_period with
  | none => none
  | some p => if p = "" then none else dictGet d.periods p

/-- Writing the (mutated) current period back into the document; in Python the
period dict is mutated in place, which this models. -/
def putCurrentPeriodData (d : Document) (per : Period) : Document :=
  match d.current_period with
  | none => d
  | some p => { d with periods := dictSet d.periods p per }

/-- `_recalculate_goal_percentage`: recompute the cached `total_percentage` of
one goal as the plain sum of its item percentages, capped at 100. -/
def _recalculate_goal_percentage (d : Document) (goal_id : String) : Document :=
  match get_current_period_data d with
  | none => d
  | some cur =>
      match dictGet cur.achievements goal_id with
      | none => d
      | some ach =>
          let total := (ach.items.map AchievementItem.percentage).sum
          let total := min total 100
          putCurrentPeriodData d
            { cur with achievements :=
                dictSet cur.achievements goal_id { ach with total_percentage := total } }

/-- `add_goal(title, weight, deadline, description)`; the fresh uuid and the
timestamp are passed explicitly. -/
def add_goal (st : DMState) (title : String) (weight : ℤ) (deadline : String)
    (description : String) (goal_id now : String) : DMState × Bool :=
  match get_current_period_data st.data with
  | none => (st, false)
  | some cur =>
      let newGoal : Goal :=
        { id := goal_id, title := title, weight := weight, deadline := deadline,
          description := description, created_at := now }
      let cur :=
        { cur with
            goals := cur.goals ++ [newGoal],
            achievements :=
              dictSet cur.achievements goal_id { items := [], total_percentage := 0 } }
      save_data { st with data := putCurrentPeriodData st.data cur }

/-- `delete_goal(goal_id)`: filters the goal out of the list and removes its
achievements entry if present. -/
def delete_goal (st : DMState) (goal_id : String) : DMState × Bool :=
  match get_current_period_data st.data with
  | none => (st, false)
  | some cur =>
      let cur :=
        { cur with
            goals := cur.goals.filter (fun g => g.id ≠ goal_id),
            achievements := dictDel cur.achievements goal_id }
      save_data { st with data := putCurrentPeriodData st.data cur }

/-- `add_achievement_item(goal_id, content, percentage)`; uuid and timestamp
passed explicitly. -/
def add_achievement_item (st : DMState) (goal_id content : String)
    (percentage : ℚ) (item_id now : String) : DMState × Bool :=
  match get_current_period_data st.data with
  | none => (st, false)
  | some cur =>
      if ¬ cur.goals.any (fun g => g.id = goal_id) then (st, false)
      else
        let emptyAch : Achievement := { items := [], total_percentage := 0 }
        let cur :=
          if (dictGet cur.achievements goal_id).isSome then cur
          else { cur with achievements := dictSet cur.achievements goal_id emptyAch }
        let ach := (dictGet cur.achievements goal_id).getD { items := [], total_percentage := 0 }
        let newItem : AchievementItem :=
          { id := item_id, content := content, percentage := percentage,
            created_at := now }
        let cur :=
          { cur with achievements :=
              dictSet cur.achievements goal_id { ach with items := ach.items ++ [newItem] } }
        let d := putCurrentPeriodData st.data cur
        save_data { st with data := _recalculate_goal_percentage d goal_id }

/-- The `for ... break / else` loop of `update_achievement_item`: update the
first item whose id matches, in place. -/
def updateFirstItem (items : List AchievementItem) (item_id content : String)
    (percentage : ℚ) (now : String) : List AchievementItem :=
  match items with
  | [] => []
  | it :: rest =>
      if it.id = item_id then
        { it with content := content, percentage := percentage,
                  updated_at := some now } :: rest
      else it :: updateFirstItem rest item_id content percentage now

/-- `update_achievement_item(goal_id, item_id, content, percentage)`. -/
def update_achievement_item (st : DMState) (goal_id item_id content : String)
    (percentage : ℚ) (now : String) : DMState × Bool :=
  match get_current_period_data st.data with
  | none => (st, false)
  | some cur =>
      match dictGet cur.achievements goal_id with
      | none => (st, false)
      | some ach =>
          if ¬ ach.items.any (fun it => it.id = item_id) then (st, false)
          else
            let newAch := { ach with items := updateFirstItem ach.items item_id content percentage now }
            let cur := { cur with achievements := dictSet cur.achievements goal_id newAch }
            let d := putCurrentPeriodData st.data cur
            save_data { st with data := _recalculate_goal_percentage d goal_id }

/-- `delete_achievement_item(goal_id, item_id)`. -/
def delete_achievement_item (st : DMState) (goal_id item_id : String) :
    DMState × Bool :=
  match get_current_period_data st.data with
  | none => (st, false)
  | some cur =>
      match dictGet cur.achievements goal_id with
      | none => (st, false)
      | some ach =>
          let newAch := { ach with items := ach.items.filter (fun it => it.id ≠ item_id) }
          let cur := { cur with achievements := dictSet cur.achievements goal_id newAch }
          let d := putCurrentPeriodData st.data cur
          save_data { st with data := _recalculate_goal_percentage d goal_id }

/-- `get_goals()`. -/
def get_goals (st : DMState) : List Goal :=
  match get_current_period_data st.data with
  | none => []
  | some cur => cur.goals

/-- The lazy-initialisation loop of `get_achievements`: every goal of the
current period without an achievements entry gets `{"items": [],
"total_percentage": 0.0}` inserted. -/
def fillAchievements (goals : List Goal) (acc : List (String × Achievement)) :
    List (String × Achievement) :=
  match goals with
  | [] => acc
  | g :: rest =>
      fillAchievements rest
        (if (dictGet acc g.id).isSome then acc
         else dictSet acc g.id { items := [], total_percentage := 0 })

/-- `get_achievements()`: returns the current period's achievements mapping,
lazily inserting empty entries for goals that lack one. The insertion hits the
dict held inside `self.data` (a mutation of repository state), and no
`save_data` follows. -/
def get_achievements (st : DMState) : DMState × List (String × Achievement) :=
  match get_current_period_data st.data with
  | none => (st, [])
  | some cur =>
      let filled := fillAchievements cur.goals cur.achievements
      ({ st with data := putCurrentPeriodData st.data { cur with achievements := filled } },
       filled)

/-- `calculate_achievement_rate()`: the weighted average, with the two
accumulators of the Python loop. -/
def calculate_achievement_rate (st : DMState) : DMState × ℚ :=
  let goals := get_goals st
  let res := get_achievements st
  let achievements := res.2
  if goals.isEmpty then (res.1, 0)
  else
    let acc := goals.foldl
      (fun (acc : ℚ × ℚ) goal =>
        let goal_percentage :=
          ((dictGet achievements goal.id).map Achievement.total_percentage).getD 0
        (acc.1 + (goal.weight : ℚ) * goal_percentage, acc.2 + (goal.weight : ℚ)))
      (0, 0)
    (res.1, if 0 < acc.2 then acc.1 / acc.2 else 0)

/-! ### CSV detailed export (`export_csv_detailed`). The csv text layer
(comma joining and quoting, done by Python's `csv.writer`) is abstracted: the
export is modelled as the list of rows, each row the list of cell strings
passed to `writerow`. -/

/-- Python's `f"{x:.1f}"` on the exact values this model carries: one decimal,
rounding to nearest (the claims never depend on tie-breaking). -/
def format1f (q : ℚ) : String :=
  let n : ℤ := round (q * 10)
  let sign := if n < 0 then "-" else ""
  let m := n.natAbs
  sign ++ toString (m / 10) ++ "." ++ toString (m % 10)

/-- Python's `s[:10]` (used to keep only the date part of a timestamp). -/
def take10 (s : String) : String := s.take 10

/-- The header row of the detailed CSV. -/
def detailedHeader : List String :=
  ["期間", "目標ID", "目標タイトル", "目標重要度", "目標期日", "目標詳細",
   "達成項目ID", "達成項目内容", "達成項目率(%)", "達成項目作成日", "目標全体達成率(%)"]

/-- A data row for one achievement item of a goal. -/
def detailedItemRow (period_name : String) (goal : Goal) (total_percentage : ℚ)
    (item : AchievementItem) : List String :=
  [period_name, goal.id, goal.title, toString goal.weight, goal.deadline,
   goal.description, item.id, item.content, format1f item.percentage,
   take10 item.created_at, format1f total_percentage]

/-- The single placeholder row emitted for a goal with no achievement items. -/
def detailedPlaceholderRow (period_name : String) (goal : Goal) : List String :=
  [period_name, goal.id, goal.title, toString goal.weight, goal.deadline,
   goal.description, "", "未記入", "0.0", "", "0.0"]

/-- The rows emitted for one goal by the loop body of `export_csv_detailed`. -/
def detailedGoalRows (period_name : String) (achievements : List (String × Achievement))
    (goal : Goal) : List (List String) :=
  let ga := (dictGet achievements goal.id).getD { items := [], total_percentage := 0 }
  let total_percentage := ga.total_percentage
  let items := ga.items
  if items.isEmpty then [detailedPlaceholderRow period_name goal]
  else items.map (detailedItemRow period_name goal total_percentage)

/-- `export_csv_detailed(period_name)`: `period_name = none` means the Python
default `None` (use the current period); an unknown or falsy period yields the
empty output (the source returns `""`, i.e. no rows at all). -/
def export_csv_detailed (d : Document) (period_name : Option String) :
    List (List String) :=
  let pn? := match period_name with
             | none => d.current_period
             | some p => some p
  match pn? with
  | none => []
  | some pn =>
      if pn = "" then []
      else
        match dictGet d.periods pn with
        | none => []
        | some period =>
            detailedHeader ::
              period.goals.flatMap (detailedGoalRows pn period.achievements)

/-! ### Raw parsed-JSON layer (`PyValue`), for `_migrate_data_v1_to_v2` and
`import_data`, which run on `json.loads` output before any shape is known. -/

/-- A parsed JSON value as Python's `json.loads` produces it. -/
inductive PyValue : Type
  | null : PyValue
  | bool : Bool → PyValue
  | int : ℤ → PyValue
  | float : ℚ → PyValue
  | str : String → PyValue
  | list : List PyValue → PyValue
  | dict : List (String × PyValue) → PyValue

/-- Python's `v.get(k)` on a parsed value: an `AttributeError` unless `v` is a
dict; `none` models Python's `None` result for an absent key. -/
def pyGet (v : PyValue) (k : String) : Except String (Option PyValue) :=
  match v with
  | PyValue.dict kvs => Except.ok (dictGet kvs k)
  | _ => Except.error "AttributeError"

/-- Python's `v.items()`: an `AttributeError` unless `v` is a dict. -/
def pyItems (v : PyValue) : Except String (List (String × PyValue)) :=
  match v with
  | PyValue.dict kvs => Except.ok kvs
  | _ => Except.error "AttributeError"

/-- Python truthiness of a parsed JSON value. -/
def pyTruthy (v : PyValue) : Bool :=
  match v with
  | PyValue.null => false
  | PyValue.bool b => b
  | PyValue.int n => n ≠ 0
  | PyValue.float q => q ≠ 0
  | PyValue.str s => s ≠ ""
  | PyValue.list xs => ¬ xs.isEmpty
  | PyValue.dict kvs => ¬ kvs.isEmpty

/-- Python's `v == s` for a string literal `s`. -/
def pyEqStr (v : PyValue) (s : String) : Bool :=
  match v with
  | PyValue.str t => t = s
  | _ => false

/-- Python's `str.strip()` with no argument: remove leading and trailing
whitespace. -/
def pyStripStr (s : String) : String :=
  String.mk (((s.data.dropWhile Char.isWhitespace).reverse.dropWhile Char.isWhitespace).reverse)

/-- Python's `v.strip()`: an `AttributeError` unless `v` is a string. -/
def pyStrip (v : PyValue) : Except String String :=
  match v with
  | PyValue.str s => Except.ok (pyStripStr s)
  | _ => Except.error "AttributeError"

/-- A Python `for` loop building a list of results, aborting at the first
uncaught exception. -/
def exceptMapM {α β : Type} (f : α → Except String β) : List α → Except String (List β)
  | [] => Except.ok []
  | x :: xs =>
      match f x with
      | Except.error e => Except.error e
      | Except.ok y =>
          match exceptMapM f xs with
          | Except.error e => Except.error e
          | Except.ok ys => Except.ok (y :: ys)

/-- The fresh `{"items": [], "total_percentage": 0.0}` entry built by the
migration for an empty legacy achievement text. -/
def migratedEmptyEntry : PyValue :=
  PyValue.dict [("items", PyValue.list []), ("total_percentage", PyValue.float 0)]

/-- The single-item entry built by the migration for a non-empty legacy
achievement text (`item_id` stands for the fresh `uuid4`, `now` for the
timestamp). -/
def migratedFullEntry (item_id : String) (text : PyValue) (now : String) : PyValue :=
  PyValue.dict
    [("items", PyValue.list
        [PyValue.dict
          [("id", PyValue.str item_id), ("content", text),
           ("percentage", PyValue.float 100), ("created_at", PyValue.str now)]]),
     ("total_percentage", PyValue.float 100)]

/-- The migration of one legacy per-goal achievement value: the body of the
inner loop of `_migrate_data_v1_to_v2`. `if achievement_text and
achievement_text.strip():` — note that a truthy non-string raises on
`.strip()`. -/
def migrateAchValue (mkId : String → String → String) (now : String)
    (period_name goal_id : String) (text : PyValue) : Except String PyValue :=
  if pyTruthy text then
    match pyStrip text with
    | Except.error e => Except.error e
    | Except.ok stripped =>
        if stripped ≠ "" then
          Except.ok (migratedFullEntry (mkId period_name goal_id) text now)
        else Except.ok migratedEmptyEntry
  else Except.ok migratedEmptyEntry

/-- The migration of one period: the body of the outer loop of
`_migrate_data_v1_to_v2`. -/
def migratePeriodV1 (mkId : String → String → String) (now : String)
    (period_name : String) (period_data : PyValue) : Except String PyValue :=
  match pyGet period_data "goals" with
  | Except.error e => Except.error e
  | Except.ok goals? =>
      match pyGet period_data "created_at" with
      | Except.error e => Except.error e
      | Except.ok created? =>
          match pyGet period_data "achievements" with
          | Except.error e => Except.error e
          | Except.ok oldAch? =>
              match pyItems (oldAch?.getD (PyValue.dict [])) with
              | Except.error e => Except.error e
              | Except.ok oldAch =>
                  match exceptMapM (fun gv =>
                      (migrateAchValue mkId now period_name gv.1 gv.2).map
                        (fun entry => (gv.1, entry))) oldAch with
                  | Except.error e => Except.error e
                  | Except.ok newAch =>
                      Except.ok (PyValue.dict
                        [("goals", goals?.getD (PyValue.list [])),
                         ("achievements", PyValue.dict newAch),
                         ("created_at", created?.getD (PyValue.str now))])

/-- `_migrate_data_v1_to_v2(old_data)`: builds the fresh default document,
copies settings and current period, and converts each period. `mkId period
goal` stands for the fresh `uuid4` of the migrated item of that goal; `now`
for `datetime.now().isoformat()`. -/
def _migrate_data_v1_to_v2 (mkId : String → String → String) (now : String)
    (old_data : PyValue) : Except String PyValue :=
  match pyGet old_data "settings" with
  | Except.error e => Except.error e
  | Except.ok settings? =>
      match pyGet old_data "current_period" with
      | Except.error e => Except.error e
      | Except.ok curp? =>
          match pyGet old_data "periods" with
          | Except.error e => Except.error e
          | Except.ok periods? =>
              match pyItems (periods?.getD (PyValue.dict [])) with
              | Except.error e => Except.error e
              | Except.ok oldPeriods =>
                  match exceptMapM (fun pv =>
                      (migratePeriodV1 mkId now pv.1 pv.2).map
                        (fun per => (pv.1, per))) oldPeriods with
                  | Except.error e => Except.error e
                  | Except.ok newPeriods =>
                      Except.ok (PyValue.dict
                        [("periods", PyValue.dict newPeriods),
                         ("current_period", curp?.getD PyValue.null),
                         ("settings", settings?.getD (PyValue.dict [])),
                         ("version", PyValue.str "2.0")])

/-- The manager state on the raw side: `self.data` as a parsed JSON tree plus
the save counter (used for the export/import path, where arbitrary parsed
payloads can become `self.data`). -/
structure RawManager where
  data : PyValue
  saves : ℕ

/-- `export_data()`: `json.dumps(self.data, ...)`. The text codec is the
standard library and is modelled as the identity on parsed trees: the string
it produces parses back (`json.loads`) to exactly this tree. -/
def export_data (st : RawManager) : PyValue :=
  st.data

/-- `import_data(json_data)`: `parsed` is the result of `json.loads` —
`none` for malformed JSON (`json.JSONDecodeError`, caught: returns `False`
with the state untouched). On a parsed payload the version check runs
`imported_data.get("version")`, which raises `AttributeError` on a non-dict
payload (`Except.error`); a falsy or `"1.0"` version routes through
`_migrate_data_v1_to_v2`; then `self.data = imported_data` and
`self.save_data()`. -/
def import_data (st : RawManager) (parsed : Option PyValue)
    (mkId : String → String → String) (now : String) :
    Except String (RawManager × Bool) :=
  match parsed with
  | none => Except.ok (st, false)
  | some imported =>
      match pyGet imported "version" with
      | Except.error e => Except.error e
      | Except.ok ver? =>
          let ver := ver?.getD PyValue.null
          if ¬ pyTruthy ver ∨ pyEqStr ver "1.0" then
            match _migrate_data_v1_to_v2 mkId now imported with
            | Except.error e => Except.error e
            | Except.ok migrated =>
                Except.ok ({ data := migrated, saves := st.saves + 1 }, true)
          else
            Except.ok ({ data := imported, saves := st.saves + 1 }, true)

/-! ### Helper lemmas about the current period and recalculation -/

/-- The entry `_recalculate_goal_percentage` writes back: same items, cached
total recomputed as the capped sum. -/
def recalculatedEntry (ach : Achievement) : Achievement :=
  { ach with
      total_percentage := min ((ach.items.map AchievementItem.percentage).sum) 100 }

/-- Replacing the achievements mapping of a period. -/
def withAchievements (cur : Period) (a : List (String × Achievement)) : Period :=
  { cur with achievements := a }

theorem get_current_eq_cases (d : Document) (cur : Period)
    (h : get_current_period_data d = some cur) :
    ∃ p, d.current_period = some p ∧ p ≠ "" ∧ dictGet d.periods p = some cur := by
  cases hc : d.current_period with
  | none => unfold get_current_period_data at h; rw [hc] at h; simp at h
  | some p =>
      unfold get_current_period_data at h
      rw [hc] at h
      simp only [] at h
      by_cases hp : p = ""
      · rw [if_pos hp] at h; cases h
      · rw [if_neg hp] at h; exact ⟨p, rfl, hp, h⟩

theorem get_current_putCurrent (d : Document) (cur per : Period)
    (h : get_current_period_data d = some cur) :
    get_current_period_data (putCurrentPeriodData d per) = some per := by
  obtain ⟨p, hc, hp, _⟩ := get_current_eq_cases d cur h
  unfold putCurrentPeriodData
  rw [hc]
  unfold get_current_period_data
  simp only [hp, if_neg hp]
  exact dictGet_dictSet_self _ _ _

theorem putCurrent_self (d : Document) (cur : Period)
    (h : get_current_period_data d = some cur) :
    putCurrentPeriodData d cur = d := by
  obtain ⟨p, hc, _, hg⟩ := get_current_eq_cases d cur h
  unfold putCurrentPeriodData
  rw [hc]
  simp only []
  rw [dictSet_eq_self d.periods p cur hg, ← hc]

theorem recalc_spec (d : Document) (gid : String) (cur : Period)
    (ach : Achievement) (h1 : get_current_period_data d = some cur)
    (h2 : dictGet cur.achievements gid = some ach) :
    get_current_period_data (_recalculate_goal_percentage d gid) =
      some (withAchievements cur (dictSet cur.achievements gid (recalculatedEntry ach))) := by
  unfold _recalculate_goal_percentage
  rw [h1]
  simp only []
  rw [h2]
  simp only []
  exact get_current_putCurrent d cur _ h1

theorem recalc_noop (d : Document) (gid : String) (cur : Period)
    (ach : Achievement) (h1 : get_current_period_data d = some cur)
    (h2 : dictGet cur.achievements gid = some ach)
    (hinv : ach.total_percentage =
      min 100 ((ach.items.map AchievementItem.percentage).sum)) :
    _recalculate_goal_percentage d gid = d := by
  unfold _recalculate_goal_percentage
  rw [h1]
  simp only []
  rw [h2]
  simp only []
  have hach : { ach with
      total_percentage := min ((ach.items.map AchievementItem.percentage).sum) 100 } = ach := by
    cases ach with
    | mk items tp =>
        simp only [Achievement.mk.injEq, and_true, true_and]
        simp only at hinv
        rw [hinv, min_comm]
  rw [hach, dictSet_eq_self cur.achievements gid ach h2]
  exact putCurrent_self d cur h1

/-- Observation: the achievement entry of one goal of the current period. -/
def currentGoalAchievement (st : DMState) (gid : String) : Option Achievement :=
  match get_current_period_data st.data with
  | none => none
  | some cur => dictGet cur.achievements gid

/-- The cap invariant of the spec at one goal: the stored `total_percentage`
is `min(100, sum of the item percentages)`. -/
def capInvariantAt (st : DMState) (gid : String) : Prop :=
  ∀ ach, currentGoalAchievement st gid = some ach →
    ach.total_percentage = min 100 ((ach.items.map AchievementItem.percentage).sum)

theorem cap_after_recalc_save (st : DMState) (cur₂ : Period) (gid : String)
    (newA : Achievement)
    (hP2 : get_current_period_data (putCurrentPeriodData st.data cur₂) = some cur₂)
    (hL2 : dictGet cur₂.achievements gid = some newA) :
    capInvariantAt
      (save_data { st with
        data := _recalculate_goal_percentage (putCurrentPeriodData st.data cur₂) gid }).1
      gid := by
  intro ach' hach'
  have hP3 := recalc_spec _ gid cur₂ newA hP2 hL2
  unfold currentGoalAchievement at hach'
  simp only [save_data] at hach'
  rw [hP3] at hach'
  simp only [] at hach'
  unfold withAchievements at hach'
  simp only [dictGet_dictSet_self] at hach'
  obtain rfl : recalculatedEntry newA = ach' := by
    injection hach'
  unfold recalculatedEntry
  simp only []
  rw [min_comm]

/-- A fresh item as `add_achievement_item` constructs it. -/
def mkItem (iid content : String) (p : ℚ) (now : String) : AchievementItem :=
  { id := iid, content := content, percentage := p, created_at := now }

/-- Replacing the item list of an achievement entry. -/
def withItems (ach : Achievement) (items : List AchievementItem) : Achievement :=
  { ach with items := items }

/-- The empty entry `{"items": [], "total_percentage": 0.0}`. -/
def emptyAchievement : Achievement :=
  { items := [], total_percentage := 0 }

theorem add_item_eq_of_found (st : DMState) (gid content : String) (p : ℚ)
    (iid now : String) (cur : Period) (a : Achievement)
    (hcur : get_current_period_data st.data = some cur)
    (hany : cur.goals.any (fun g => g.id = gid) = true)
    (hao : dictGet cur.achievements gid = some a) :
    add_achievement_item st gid content p iid now =
      save_data { st with
        data := _recalculate_goal_percentage
          (putCurrentPeriodData st.data
            (withAchievements cur (dictSet cur.achievements gid
              (withItems a (a.items ++ [mkItem iid content p now]))))) gid } := by
  simp [add_achievement_item, hcur, hany, hao, withAchievements, withItems, mkItem]

theorem add_item_eq_of_not_found (st : DMState) (gid content : String) (p : ℚ)
    (iid now : String) (cur : Period)
    (hcur : get_current_period_data st.data = some cur)
    (hany : cur.goals.any (fun g => g.id = gid) = true)
    (hao : dictGet cur.achievements gid = none) :
    add_achievement_item st gid content p iid now =
      save_data { st with
        data := _recalculate_goal_percentage
          (putCurrentPeriodData st.data
            (withAchievements cur (dictSet (dictSet cur.achievements gid emptyAchievement) gid
              (withItems emptyAchievement [mkItem iid content p now])))) gid } := by
  simp [add_achievement_item, hcur, hany, hao, withAchievements, withItems, mkItem,
        emptyAchievement, dictGet_dictSet_self]

theorem update_item_eq (st : DMState) (gid iid content : String) (p : ℚ)
    (now : String) (cur : Period) (a : Achievement)
    (hcur : get_current_period_data st.data = some cur)
    (hao : dictGet cur.achievements gid = some a)
    (hit : a.items.any (fun it => it.id = iid) = true) :
    update_achievement_item st gid iid content p now =
      save_data { st with
        data := _recalculate_goal_percentage
          (putCurrentPeriodData st.data
            (withAchievements cur (dictSet cur.achievements gid
              (withItems a (updateFirstItem a.items iid content p now))))) gid } := by
  simp [update_achievement_item, hcur, hao, hit, withAchievements, withItems]

theorem delete_item_eq (st : DMState) (gid iid : String) (cur : Period)
    (a : Achievement)
    (hcur : get_current_period_data st.data = some cur)
    (hao : dictGet cur.achievements gid = some a) :
    delete_achievement_item st gid iid =
      save_data { st with
        data := _recalculate_goal_percentage
          (putCurrentPeriodData st.data
            (withAchievements cur (dictSet cur.achievements gid
              (withItems a (a.items.filter (fun it => it.id ≠ iid)))))) gid } := by
  simp [delete_achievement_item, hcur, hao, withAchievements, withItems]

/-- After a successful mutation, the goal's entry is present with the capped
total: the common tail of all three item mutations. -/
theorem cap_of_mutation_tail (st : DMState) (cur : Period) (gid : String)
    (A : List (String × Achievement)) (newA : Achievement)
    (hcur : get_current_period_data st.data = some cur) :
    capInvariantAt
      (save_data { st with
        data := _recalculate_goal_percentage
          (putCurrentPeriodData st.data
            (withAchievements cur (dictSet A gid newA))) gid }).1 gid := by
  have hP2 : get_current_period_data
      (putCurrentPeriodData st.data (withAchievements cur (dictSet A gid newA))) =
      some (withAchievements cur (dictSet A gid newA)) :=
    get_current_putCurrent st.data cur _ hcur
  have hL2 : dictGet (withAchievements cur (dictSet A gid newA)).achievements gid =
      some newA := dictGet_dictSet_self A gid newA
  exact cap_after_recalc_save st _ gid newA hP2 hL2

/-- C1: for the goal a successful `add_achievement_item`,
`update_achievement_item` or `delete_achievement_item` call operates on, the
stored `total_percentage` afterwards equals `min(100, sum of the item
percentages)`. -/
theorem C1_cap_invariant_after_item_mutation (st : DMState)
    (gid content : String) (p : ℚ) (iid now : String) :
    ((add_achievement_item st gid content p iid now).2 = true →
       capInvariantAt (add_achievement_item st gid content p iid now).1 gid) ∧
    ((update_achievement_item st gid iid content p now).2 = true →
       capInvariantAt (update_achievement_item st gid iid content p now).1 gid) ∧
    ((delete_achievement_item st gid iid).2 = true →
       capInvariantAt (delete_achievement_item st gid iid).1 gid) := by
  refine ⟨?_, ?_, ?_⟩
  · intro h
    cases hcur : get_current_period_data st.data with
    | none =>
        have heq : add_achievement_item st gid content p iid now = (st, false) := by
          simp [add_achievement_item, hcur]
        rw [heq] at h
        simp at h
    | some cur =>
        by_cases hany : cur.goals.any (fun g => g.id = gid) = true
        · cases hao : dictGet cur.achievements gid with
          | none =>
              rw [add_item_eq_of_not_found st gid content p iid now cur hcur hany hao]
              exact cap_of_mutation_tail st cur gid _ _ hcur
          | some a =>
              rw [add_item_eq_of_found st gid content p iid now cur a hcur hany hao]
              exact cap_of_mutation_tail st cur gid _ _ hcur
        · have hany' : cur.goals.any (fun g => g.id = gid) = false := by
            simpa using hany
          have heq : add_achievement_item st gid content p iid now = (st, false) := by
            simp [add_achievement_item, hcur, hany']
          rw [heq] at h
          simp at h
  · intro h
    cases hcur : get_current_period_data st.data with
    | none =>
        have heq : update_achievement_item st gid iid content p now = (st, false) := by
          simp [update_achievement_item, hcur]
        rw [heq] at h
        simp at h
    | some cur =>
        cases hao : dictGet cur.achievements gid with
        | none =>
            have heq : update_achievement_item st gid iid content p now = (st, false) := by
              simp [update_achievement_item, hcur, hao]
            rw [heq] at h
            simp at h
        | some a =>
            by_cases hit : a.items.any (fun it => it.id = iid) = true
            · rw [update_item_eq st gid iid content p now cur a hcur hao hit]
              exact cap_of_mutation_tail st cur gid _ _ hcur
            · have hit' : a.items.any (fun it => it.id = iid) = false := by
                simpa using hit
              have heq : update_achievement_item st gid iid content p now = (st, false) := by
                simp [update_achievement_item, hcur, hao, hit']
              rw [heq] at h
              simp at h
  · intro h
    cases hcur : get_current_period_data st.data with
    | none =>
        have heq : delete_achievement_item st gid iid = (st, false) := by
          simp [delete_achievement_item, hcur]
        rw [heq] at h
        simp at h
    | some cur =>
        cases hao : dictGet cur.achievements gid with
        | none =>
            have heq : delete_achievement_item st gid iid = (st, false) := by
              simp [delete_achievement_item, hcur, hao]
            rw [heq] at h
            simp at h
        | some a =>
            rw [delete_item_eq st gid iid cur a hcur hao]
            exact cap_of_mutation_tail st cur gid _ _ hcur

/-! ### Concrete sample states (fixtures for witnesses) -/

def sampleGoal : Goal :=
  { id := "g1", title := "Increase sales 20%", weight := 8,
    deadline := "2024-03-31", description := "", created_at := "2024-01-05" }

def samplePeriod : Period :=
  { goals := [sampleGoal], achievements := [("g1", emptyAchievement)],
    created_at := "2024-01-05" }

def sampleSt : DMState :=
  { data := { periods := [("2024-Q1", samplePeriod)],
              current_period := some "2024-Q1",
              settings := { claude_api_key := "" }, version := "2.0" },
    saves := 0 }

/-- The state after logging the 40% item of the scenario. -/
def sampleSt1 : DMState :=
  (add_achievement_item sampleSt "g1" "Signed client A" 40 "i1" "t1").1

/-- C1 witness: two items of 40 and 70 yield a stored `total_percentage` of
exactly 100, and 100 is indeed the capped sum. -/
theorem C1_cap_invariant_witness :
    (add_achievement_item sampleSt1 "g1" "Signed client B" 70 "i2" "t2").2 = true ∧
    currentGoalAchievement
      (add_achievement_item sampleSt1 "g1" "Signed client B" 70 "i2" "t2").1 "g1" =
      some { items := [mkItem "i1" "Signed client A" 40 "t1",
                       mkItem "i2" "Signed client B" 70 "t2"],
             total_percentage := 100 } ∧
    (100 : ℚ) = min 100
      (([mkItem "i1" "Signed client A" 40 "t1",
         mkItem "i2" "Signed client B" 70 "t2"].map AchievementItem.percentage).sum) := by
  have hlook : currentGoalAchievement
      (add_achievement_item sampleSt1 "g1" "Signed client B" 70 "i2" "t2").1 "g1" =
      some { items := [mkItem "i1" "Signed client A" 40 "t1",
                       mkItem "i2" "Signed client B" 70 "t2"],
             total_percentage := 100 } := by
    simp [currentGoalAchievement, sampleSt1, sampleSt, samplePeriod, sampleGoal,
      add_achievement_item, get_current_period_data, putCurrentPeriodData,
      _recalculate_goal_percentage, save_data, dictGet, dictSet, mkItem,
      emptyAchievement, min_def]
    norm_num
  refine ⟨rfl, hlook, ?_⟩
  have h := (C1_cap_invariant_after_item_mutation sampleSt1 "g1" "Signed client B"
    70 "i2" "t2").1 rfl _ hlook
  simpa [mkItem] using h

/-! ### C2: the weighted achievement rate -/

/-- Observation: the stored `total_percentage` of a goal in the current
period, defaulting to 0 for a missing entry — exactly the
`achievements.get(goal_id, {}).get("total_percentage", 0.0)` read. -/
def storedTotalPercentage (st : DMState) (gid : String) : ℚ :=
  match get_current_period_data st.data with
  | none => 0
  | some cur => ((dictGet cur.achievements gid).map Achievement.total_percentage).getD 0

/-- The `total_weight` accumulator value of `calculate_achievement_rate`. -/
def totalWeight (st : DMState) : ℚ :=
  ((get_goals st).map (fun g => (g.weight : ℚ))).sum

/-- The `total_weighted_percentage` accumulator value of
`calculate_achievement_rate`. -/
def totalWeightedPercentage (st : DMState) : ℚ :=
  ((get_goals st).map (fun g => (g.weight : ℚ) * storedTotalPercentage st g.id)).sum

theorem foldl_weighted_pair (goals : List Goal) (f : String → ℚ) (a b : ℚ) :
    goals.foldl
      (fun (acc : ℚ × ℚ) goal =>
        (acc.1 + (goal.weight : ℚ) * f goal.id, acc.2 + (goal.weight : ℚ))) (a, b) =
      (a + (goals.map (fun g => (g.weight : ℚ) * f g.id)).sum,
       b + (goals.map (fun g => (g.weight : ℚ))).sum) := by
  induction goals generalizing a b with
  | nil => simp
  | cons g rest ih =>
      simp only [List.foldl_cons, List.map_cons, List.sum_cons, ih]
      rw [Prod.mk.injEq]
      constructor <;> ring

theorem fill_get_some (goals : List Goal) (acc : List (String × Achievement))
    (k : String) (v : Achievement) (h : dictGet acc k = some v) :
    dictGet (fillAchievements goals acc) k = some v := by
  induction goals generalizing acc with
  | nil => simpa [fillAchievements] using h
  | cons g rest ih =>
      unfold fillAchievements
      by_cases hg : (dictGet acc g.id).isSome = true
      · rw [if_pos hg]; exact ih acc h
      · rw [if_neg hg]
        apply ih
        by_cases hk : g.id = k
        · subst hk
          rw [h] at hg
          simp at hg
        · rw [dictGet_dictSet_ne acc g.id k _ hk]
          exact h

theorem fill_get_none_mem (goals : List Goal) (acc : List (String × Achievement))
    (k : String) (h : dictGet acc k = none) (hm : k ∈ goals.map Goal.id) :
    dictGet (fillAchievements goals acc) k = some emptyAchievement := by
  induction goals generalizing acc with
  | nil => simp at hm
  | cons g rest ih =>
      unfold fillAchievements
      simp only [List.map_cons, List.mem_cons] at hm
      by_cases hk : g.id = k
      · subst hk
        rw [h]
        simp only [Option.isSome_none, Bool.false_eq_true, if_false]
        exact fill_get_some rest _ g.id emptyAchievement
          (by simpa [emptyAchievement] using dictGet_dictSet_self acc g.id emptyAchievement)
      · have hm' : k ∈ rest.map Goal.id := by
          rcases hm with hm | hm
          · exact absurd hm.symm hk
          · exact hm
        by_cases hg : (dictGet acc g.id).isSome = true
        · rw [if_pos hg]; exact ih acc h hm'
        · rw [if_neg hg]
          apply ih _ _ hm'
          rw [dictGet_dictSet_ne acc g.id k _ hk]
          exact h

theorem fill_tp_eq (goals : List Goal) (acc : List (String × Achievement))
    (k : String) :
    ((dictGet (fillAchievements goals acc) k).map Achievement.total_percentage).getD 0 =
      ((dictGet acc k).map Achievement.total_percentage).getD 0 := by
  induction goals generalizing acc with
  | nil => rfl
  | cons g rest ih =>
      unfold fillAchievements
      by_cases hg : (dictGet acc g.id).isSome = true
      · rw [if_pos hg]; exact ih acc
      · rw [if_neg hg]
        rw [ih]
        by_cases hk : g.id = k
        · subst hk
          rw [dictGet_dictSet_self]
          cases ha : dictGet acc g.id with
          | none => simp [emptyAchievement]
          | some a => rw [ha] at hg; simp at hg
        · rw [dictGet_dictSet_ne acc g.id k _ hk]

/-- C2: `calculate_achievement_rate` returns the weight-weighted average of
the stored goal percentages, and 0 when there are no goals or the total
weight is 0 (no division by zero occurs). -/
theorem C2_weighted_rate (st : DMState) :
    (get_goals st = [] → (calculate_achievement_rate st).2 = 0) ∧
    (0 < totalWeight st →
      (calculate_achievement_rate st).2 = totalWeightedPercentage st / totalWeight st) ∧
    (totalWeight st = 0 → (calculate_achievement_rate st).2 = 0) := by
  cases hcur : get_current_period_data st.data with
  | none =>
      have hgoals : get_goals st = [] := by simp [get_goals, hcur]
      have hrate : (calculate_achievement_rate st).2 = 0 := by
        simp [calculate_achievement_rate, get_goals, hcur]
      have hw : totalWeight st = 0 := by simp [totalWeight, hgoals]
      refine ⟨fun _ => hrate, fun h => ?_, fun _ => hrate⟩
      rw [hw] at h
      exact absurd h (lt_irrefl 0)
  | some cur =>
      have hgoals : get_goals st = cur.goals := by simp [get_goals, hcur]
      by_cases hemp : cur.goals = []
      · have hgoals0 : get_goals st = [] := by rw [hgoals, hemp]
        have hrate : (calculate_achievement_rate st).2 = 0 := by
          simp [calculate_achievement_rate, get_goals, hcur, hemp]
        have hw : totalWeight st = 0 := by simp [totalWeight, hgoals0]
        refine ⟨fun _ => hrate, fun h => ?_, fun _ => hrate⟩
        rw [hw] at h
        exact absurd h (lt_irrefl 0)
      · have hach2 : (get_achievements st).2 = fillAchievements cur.goals cur.achievements := by
          simp [get_achievements, hcur]
        have hne : cur.goals.isEmpty = false := by
          simpa [List.isEmpty_iff] using hemp
        have hrate : (calculate_achievement_rate st).2 =
            (if 0 < totalWeight st
             then totalWeightedPercentage st / totalWeight st else 0) := by
          simp only [calculate_achievement_rate, hgoals, hach2, hne,
            Bool.false_eq_true, if_false]
          rw [foldl_weighted_pair cur.goals
            (fun gid => ((dictGet (fillAchievements cur.goals cur.achievements) gid).map
              Achievement.total_percentage).getD 0) 0 0]
          have hw : totalWeight st = (cur.goals.map (fun g => (g.weight : ℚ))).sum := by
            simp [totalWeight, hgoals]
          have hwp : totalWeightedPercentage st =
              (cur.goals.map (fun g => (g.weight : ℚ) *
                ((dictGet (fillAchievements cur.goals cur.achievements) g.id).map
                  Achievement.total_percentage).getD 0)).sum := by
            simp only [totalWeightedPercentage, hgoals, storedTotalPercentage, hcur,
              fill_tp_eq]
          rw [hw, hwp]
          simp
        refine ⟨fun h => ?_, fun h => ?_, fun h => ?_⟩
        · rw [hgoals] at h; exact absurd h hemp
        · rw [hrate, if_pos h]
        · rw [hrate, h]
          simp

/-- A state with one fully-achieved goal of weight 8 (stored values written
out literally). -/
def rateAch : Achievement :=
  { items := [mkItem "i1" "Signed client A" 40 "t1", mkItem "i2" "Signed client B" 70 "t2"],
    total_percentage := 100 }

def ratePeriod : Period :=
  { goals := [sampleGoal], achievements := [("g1", rateAch)], created_at := "2024-01-05" }

def rateSt : DMState :=
  { data := { periods := [("2024-Q1", ratePeriod)],
              current_period := some "2024-Q1",
              settings := { claude_api_key := "" }, version := "2.0" },
    saves := 0 }

/-- C2 witness: in the two-item scenario the total weight is positive and the
rate is the weighted average. -/
theorem C2_weighted_rate_witness :
    (0 : ℚ) < totalWeight rateSt ∧
    (calculate_achievement_rate rateSt).2 =
      totalWeightedPercentage rateSt / totalWeight rateSt := by
  have hw : (0 : ℚ) < totalWeight rateSt := by
    simp +decide only [totalWeight, get_goals, get_current_period_data, rateSt, dictGet]
    norm_num [ratePeriod, sampleGoal]
  exact ⟨hw, (C2_weighted_rate rateSt).2.1 hw⟩

/-! ### C7: goal deletion removes the achievement entry too -/

theorem add_item_fails_when_goal_absent (st₂ : DMState) (gid : String)
    (hno : ∀ cur₂, get_current_period_data st₂.data = some cur₂ →
      gid ∉ cur₂.goals.map Goal.id)
    (content : String) (p : ℚ) (iid now : String) :
    add_achievement_item st₂ gid content p iid now = (st₂, false) := by
  cases hc2 : get_current_period_data st₂.data with
  | none => simp [add_achievement_item, hc2]
  | some cur₂ =>
      have hmem := hno cur₂ hc2
      have hany : cur₂.goals.any (fun g => g.id = gid) = false := by
        simp only [List.any_eq_false, decide_eq_true_eq]
        intro g hg he
        exact hmem (he ▸ List.mem_map_of_mem Goal.id hg)
      simp [add_achievement_item, hc2, hany]

/-- What `delete_goal` leaves of the current period. -/
def deletedPeriod (cur : Period) (gid : String) : Period :=
  { goals := cur.goals.filter (fun g => g.id ≠ gid),
    achievements := dictDel cur.achievements gid,
    created_at := cur.created_at }

/-- C7: deleting a present goal succeeds, removes the goal from the goal list
and its entry from the achievements mapping, and as long as no period data
contains the goal id again, `add_achievement_item` for it fails with the
`False` (NotFound) signal and does not change the state. -/
theorem C7_delete_goal_removes_goal_and_achievement (st : DMState) (gid : String)
    (cur : Period) (hcur : get_current_period_data st.data = some cur)
    (_hmem : gid ∈ cur.goals.map Goal.id)
    (huniq : (cur.achievements.map Prod.fst).Nodup) :
    (delete_goal st gid).2 = true ∧
    (∃ cur', get_current_period_data (delete_goal st gid).1.data = some cur' ∧
       (∀ g ∈ cur'.goals, g.id ≠ gid) ∧
       dictGet cur'.achievements gid = none) ∧
    (∀ (st₂ : DMState), (∀ cur₂, get_current_period_data st₂.data = some cur₂ →
         gid ∉ cur₂.goals.map Goal.id) →
       ∀ content p iid now, add_achievement_item st₂ gid content p iid now = (st₂, false)) ∧
    (∀ content p iid now,
       add_achievement_item (delete_goal st gid).1 gid content p iid now =
         ((delete_goal st gid).1, false)) := by
  have heq : delete_goal st gid =
      save_data { st with data := putCurrentPeriodData st.data (deletedPeriod cur gid) } := by
    simp [delete_goal, hcur, deletedPeriod]
  have hget : get_current_period_data (delete_goal st gid).1.data =
      some (deletedPeriod cur gid) := by
    rw [heq]
    exact get_current_putCurrent st.data cur _ hcur
  have hfilter : ∀ g ∈ cur.goals.filter (fun g => g.id ≠ gid), g.id ≠ gid := by
    intro g hg
    have := List.of_mem_filter hg
    simpa using this
  refine ⟨by rw [heq]; rfl,
    ⟨_, hget, hfilter, dictGet_dictDel_self cur.achievements gid huniq⟩,
    fun st₂ => add_item_fails_when_goal_absent st₂ gid, ?_⟩
  intro content p iid now
  apply add_item_fails_when_goal_absent
  intro cur₂ hc2
  rw [hget] at hc2
  obtain rfl := Option.some.inj hc2
  intro hmem2
  simp only [List.mem_map] at hmem2
  obtain ⟨g, hg, hgid⟩ := hmem2
  exact hfilter g hg hgid

/-- C7 witness: deleting the sample goal removes its entry and a subsequent
add for its id fails. -/
theorem C7_delete_goal_witness :
    (delete_goal sampleSt "g1").2 = true ∧
    currentGoalAchievement (delete_goal sampleSt "g1").1 "g1" = none ∧
    add_achievement_item (delete_goal sampleSt "g1").1 "g1" "Late item" 10 "i9" "t9" =
      ((delete_goal sampleSt "g1").1, false) := by
  have h := C7_delete_goal_removes_goal_and_achievement sampleSt "g1" samplePeriod
    rfl (by decide) (by decide)
  obtain ⟨h1, ⟨cur', hg, hf, hd⟩, hgen, hinst⟩ := h
  refine ⟨h1, ?_, hinst "Late item" 10 "i9" "t9"⟩
  simp [currentGoalAchievement, hg, hd]

/-! ### C8: `delete_achievement_item` on absent ids -/

theorem withItems_self (a : Achievement) : withItems a a.items = a := by
  cases a
  rfl

theorem withAchievements_self (cur : Period) :
    withAchievements cur cur.achievements = cur := by
  cases cur
  rfl

/-- C8 counterexample: with a current period selected but no achievements
entry for goal id `"gX"`, `delete_achievement_item` returns `False` — the
failure signal of the repository — although the referenced item is certainly
absent; the claim says such a call "does not report an error". The state is
unchanged and nothing is saved. -/
theorem C8_absent_goal_reports_failure :
    delete_achievement_item sampleSt "gX" "iX" = (sampleSt, false) := rfl

/-- C8 amended: when the goal has an achievement entry whose cached total
satisfies the cap invariant and the item id is absent from it, the call
succeeds (save result `True`) and changes nothing but the save counter; when
the goal id has no achievement entry — or no current period is selected — the
call returns `False` and leaves the state untouched. -/
theorem C8_delete_absent_item (st : DMState) (gid iid : String) :
    (∀ cur ach, get_current_period_data st.data = some cur →
       dictGet cur.achievements gid = some ach →
       (∀ it ∈ ach.items, it.id ≠ iid) →
       ach.total_percentage = min 100 ((ach.items.map AchievementItem.percentage).sum) →
       delete_achievement_item st gid iid = ({ st with saves := st.saves + 1 }, true)) ∧
    (get_current_period_data st.data = none →
       delete_achievement_item st gid iid = (st, false)) ∧
    (∀ cur, get_current_period_data st.data = some cur →
       dictGet cur.achievements gid = none →
       delete_achievement_item st gid iid = (st, false)) := by
  refine ⟨?_, ?_, ?_⟩
  · intro cur ach hcur hao h3 hinv
    have hfil : ach.items.filter (fun it => it.id ≠ iid) = ach.items := by
      apply List.filter_eq_self.mpr
      intro it hit
      simpa using h3 it hit
    rw [delete_item_eq st gid iid cur ach hcur hao, hfil, withItems_self,
      dictSet_eq_self _ _ _ hao, withAchievements_self,
      putCurrent_self _ _ hcur, recalc_noop _ _ _ _ hcur hao hinv]
    rfl
  · intro hnone
    simp [delete_achievement_item, hnone]
  · intro cur hcur hao
    simp [delete_achievement_item, hcur, hao]

/-- C8 witness: deleting the absent item id `"zz"` under the existing entry of
`"g1"` succeeds and only bumps the save counter. -/
theorem C8_delete_absent_item_witness :
    delete_achievement_item rateSt "g1" "zz" = ({ rateSt with saves := rateSt.saves + 1 }, true) := by
  apply (C8_delete_absent_item rateSt "g1" "zz").1 ratePeriod rateAch rfl rfl
  · intro it hit
    fin_cases hit <;> decide
  · show (100 : ℚ) = min 100 ((40 : ℚ) + (70 + 0))
    norm_num

/-! ### C10: `get_achievements` and its lazy initialisation side effect -/

/-- C10: with no current period the getter returns the empty mapping and the
state unmodified; otherwise the returned mapping covers every goal of the
current period — goals without an entry get `{"items": [], "total_percentage":
0.0}`, existing entries are returned unchanged — and the filled mapping is
installed in the in-memory document while the save counter stays untouched
(no `save_data` call). -/
theorem C10_get_achievements (st : DMState) :
    (get_current_period_data st.data = none → get_achievements st = (st, [])) ∧
    (∀ cur, get_current_period_data st.data = some cur →
       (get_achievements st).1.saves = st.saves ∧
       (∀ g ∈ cur.goals, (dictGet (get_achievements st).2 g.id).isSome = true) ∧
       (∀ g ∈ cur.goals, dictGet cur.achievements g.id = none →
          dictGet (get_achievements st).2 g.id = some emptyAchievement) ∧
       (∀ k v, dictGet cur.achievements k = some v →
          dictGet (get_achievements st).2 k = some v) ∧
       get_current_period_data (get_achievements st).1.data =
         some (withAchievements cur (get_achievements st).2)) := by
  constructor
  · intro hnone
    simp [get_achievements, hnone]
  · intro cur hcur
    have heq : get_achievements st =
        ({ st with data := putCurrentPeriodData st.data (withAchievements cur (fillAchievements cur.goals cur.achievements)) },
         fillAchievements cur.goals cur.achievements) := by
      simp [get_achievements, hcur, withAchievements]
    rw [heq]
    refine ⟨rfl, ?_, ?_, ?_, ?_⟩
    · intro g hg
      cases ha : dictGet cur.achievements g.id with
      | some v => rw [fill_get_some cur.goals cur.achievements g.id v ha]; rfl
      | none =>
          rw [fill_get_none_mem cur.goals cur.achievements g.id ha
            (List.mem_map_of_mem Goal.id hg)]
          rfl
    · intro g hg ha
      exact fill_get_none_mem cur.goals cur.achievements g.id ha
        (List.mem_map_of_mem Goal.id hg)
    · intro k v hv
      exact fill_get_some cur.goals cur.achievements k v hv
    · exact get_current_putCurrent st.data cur _ hcur

/-- A second goal with no achievements entry yet. -/
def gapGoal : Goal :=
  { id := "g2", title := "Hire two engineers", weight := 5,
    deadline := "2024-03-31", description := "", created_at := "2024-01-06" }

def gapPeriod : Period :=
  { goals := [sampleGoal, gapGoal], achievements := [("g1", rateAch)],
    created_at := "2024-01-05" }

def gapSt : DMState :=
  { data := { periods := [("2024-Q1", gapPeriod)],
              current_period := some "2024-Q1",
              settings := { claude_api_key := "" }, version := "2.0" },
    saves := 0 }

/-- A state with no period selected. -/
def noPeriodSt : DMState :=
  { data := { periods := [], current_period := none,
              settings := { claude_api_key := "" }, version := "2.0" },
    saves := 0 }

/-- C10 witness: the goal without an entry gets the empty entry installed in
place, the existing entry survives, the save counter is untouched, and with no
current period the result is the empty mapping. -/
theorem C10_get_achievements_witness :
    (get_achievements gapSt).1.saves = gapSt.saves ∧
    dictGet (get_achievements gapSt).2 "g2" = some emptyAchievement ∧
    dictGet (get_achievements gapSt).2 "g1" = some rateAch ∧
    get_current_period_data (get_achievements gapSt).1.data =
      some (withAchievements gapPeriod (get_achievements gapSt).2) ∧
    get_achievements noPeriodSt = (noPeriodSt, []) := by
  have h := (C10_get_achievements gapSt).2 gapPeriod rfl
  exact ⟨h.1, h.2.2.1 gapGoal (by decide) rfl, h.2.2.2.1 "g1" rateAch rfl,
    h.2.2.2.2, (C10_get_achievements noPeriodSt).1 rfl⟩

/-! ### C9: shape of the detailed CSV export -/

theorem length_flatMap_rows {α : Type} (f : α → List (List String)) (l : List α) :
    (l.flatMap f).length = (l.map (fun x => (f x).length)).sum := by
  induction l with
  | nil => rfl
  | cons x xs ih => simp [ih]

theorem length_le_sum_ones {α : Type} (l : List α) (f : α → ℕ)
    (h : ∀ x ∈ l, 1 ≤ f x) : l.length ≤ (l.map f).sum := by
  induction l with
  | nil => simp
  | cons x xs ih =>
      simp only [List.length_cons, List.map_cons, List.sum_cons]
      have h1 := h x (List.mem_cons_self x xs)
      have h2 := ih (fun y hy => h y (List.mem_cons_of_mem x hy))
      omega

theorem detailedGoalRows_length (pn : String) (ach : List (String × Achievement))
    (g : Goal) :
    (detailedGoalRows pn ach g).length =
      (if ((dictGet ach g.id).getD emptyAchievement).items.isEmpty then 1
       else ((dictGet ach g.id).getD emptyAchievement).items.length) := by
  by_cases h : ((dictGet ach g.id).getD emptyAchievement).items.isEmpty
  · simp [detailedGoalRows, emptyAchievement] at h ⊢
    simp [h]
  · simp only [detailedGoalRows, emptyAchievement] at h ⊢
    simp [h]

/-- C9: for a known period the detailed export consists of the header followed
by one block per goal in goal order — a goal with items contributes one row
per item in insertion order, a goal with no items contributes exactly one
placeholder row whose item fields are empty and whose percentage fields are
the literal `"0.0"` — so the data-row count is the sum of `max 1 (number of
items)` over the goals, which is at least the goal count. -/
theorem C9_export_csv_detailed_shape (d : Document) (pn : String)
    (period : Period) (hpn : pn ≠ "") (hp : dictGet d.periods pn = some period) :
    export_csv_detailed d (some pn) =
      detailedHeader :: period.goals.flatMap (detailedGoalRows pn period.achievements) ∧
    (export_csv_detailed d (some pn)).length =
      1 + (period.goals.map (fun g =>
        if ((dictGet period.achievements g.id).getD emptyAchievement).items.isEmpty then 1
        else ((dictGet period.achievements g.id).getD emptyAchievement).items.length)).sum ∧
    1 + period.goals.length ≤ (export_csv_detailed d (some pn)).length ∧
    (∀ g ∈ period.goals,
       ((dictGet period.achievements g.id).getD emptyAchievement).items = [] →
       detailedGoalRows pn period.achievements g = [detailedPlaceholderRow pn g]) ∧
    (∀ g ∈ period.goals,
       ((dictGet period.achievements g.id).getD emptyAchievement).items ≠ [] →
       detailedGoalRows pn period.achievements g =
         ((dictGet period.achievements g.id).getD emptyAchievement).items.map
           (detailedItemRow pn g
             ((dictGet period.achievements g.id).getD emptyAchievement).total_percentage)) ∧
    (∀ g : Goal, (detailedPlaceholderRow pn g).drop 6 = ["", "未記入", "0.0", "", "0.0"]) := by
  have heq : export_csv_detailed d (some pn) =
      detailedHeader :: period.goals.flatMap (detailedGoalRows pn period.achievements) := by
    simp [export_csv_detailed, hpn, hp]
  have hlen : (export_csv_detailed d (some pn)).length =
      1 + (period.goals.map (fun g =>
        if ((dictGet period.achievements g.id).getD emptyAchievement).items.isEmpty then 1
        else ((dictGet period.achievements g.id).getD emptyAchievement).items.length)).sum := by
    rw [heq]
    simp only [List.length_cons, length_flatMap_rows]
    rw [Nat.add_comm]
    congr 1
    congr 1
    apply List.map_congr_left
    intro g _
    exact detailedGoalRows_length pn period.achievements g
  refine ⟨heq, hlen, ?_, ?_, ?_, ?_⟩
  · rw [hlen]
    have hle := length_le_sum_ones period.goals
      (fun g => if ((dictGet period.achievements g.id).getD emptyAchievement).items.isEmpty then 1
                else ((dictGet period.achievements g.id).getD emptyAchievement).items.length)
      (by
        intro g _
        by_cases h : ((dictGet period.achievements g.id).getD emptyAchievement).items.isEmpty
        · simp [h]
        · simp only [h, if_false]
          have : ((dictGet period.achievements g.id).getD emptyAchievement).items ≠ [] := by
            simpa [List.isEmpty_iff] using h
          exact List.length_pos.mpr this)
    omega
  · intro g _ hempty
    simp [detailedGoalRows, emptyAchievement] at hempty ⊢
    simp [hempty]
  · intro g _ hne
    have hempty : ((dictGet period.achievements g.id).getD emptyAchievement).items.isEmpty = false := by
      simpa [List.isEmpty_iff] using hne
    simp only [detailedGoalRows, emptyAchievement] at hempty ⊢
    simp [hempty]
  · intro g
    rfl

/-- C9 witness: in the sample period with one two-item goal and one item-less
goal, the row count bound holds and the item-less goal yields exactly the
placeholder row. -/
theorem C9_export_csv_detailed_witness :
    ("2024-Q1" : String) ≠ "" ∧
    dictGet gapSt.data.periods "2024-Q1" = some gapPeriod ∧
    1 + gapPeriod.goals.length ≤ (export_csv_detailed gapSt.data (some "2024-Q1")).length ∧
    detailedGoalRows "2024-Q1" gapPeriod.achievements gapGoal =
      [detailedPlaceholderRow "2024-Q1" gapGoal] := by
  have h := C9_export_csv_detailed_shape gapSt.data "2024-Q1" gapPeriod (by decide) rfl
  exact ⟨by decide, rfl, h.2.2.1, h.2.2.2.1 gapGoal (by decide) rfl⟩

/-! ### C4, C5, C6: export/import over raw parsed payloads -/

/-- C5: a malformed JSON payload (a `json.loads` failure, caught as
`json.JSONDecodeError`) makes `import_data` return `False` and leaves the
in-memory document — the whole state — exactly as it was. -/
theorem C5_import_malformed_returns_false (st : RawManager)
    (mkId : String → String → String) (now : String) :
    import_data st none mkId now = Except.ok (st, false) := rfl

/-- C6 exhibit: the string `"[1, 2, 3]"` parses as JSON (a list), then
`imported_data.get("version")` raises `AttributeError`, which `import_data`
does not catch — the repository method raises instead of returning a
success/failure value, contradicting the spec's error-handling contract. -/
theorem C6_import_nonobject_payload_raises :
    import_data { data := PyValue.dict [], saves := 0 }
      (some (PyValue.list [PyValue.int 1, PyValue.int 2, PyValue.int 3]))
      (fun _ _ => "id-1") "2024-01-01T00:00:00" = Except.error "AttributeError" := rfl

/-- C4: for a document whose top level carries `"version": "2.0"`, importing
the export succeeds, skips migration, and installs a field-for-field
identical document (the text codec round-trip is the standard library's
`json.loads ∘ json.dumps`, modelled as the identity on parsed trees). -/
theorem C4_export_import_roundtrip (st : RawManager)
    (kvs : List (String × PyValue)) (mkId : String → String → String)
    (now : String) (hdict : st.data = PyValue.dict kvs)
    (hver : dictGet kvs "version" = some (PyValue.str "2.0")) :
    import_data st (some (export_data st)) mkId now =
      Except.ok ({ data := st.data, saves := st.saves + 1 }, true) := by
  simp only [import_data, export_data, hdict, pyGet, hver, Option.getD_some,
    pyTruthy, pyEqStr]
  norm_num
  intro h
  rcases h with h | h <;> exact absurd h (by decide)

/-- A small already-migrated document. -/
def v2Doc : PyValue :=
  PyValue.dict [("periods", PyValue.dict []), ("current_period", PyValue.null),
    ("settings", PyValue.dict [("claude_api_key", PyValue.str "")]),
    ("version", PyValue.str "2.0")]

def v2Mgr : RawManager := { data := v2Doc, saves := 0 }

/-- C4 witness: the round trip on a concrete v2 document. -/
theorem C4_export_import_roundtrip_witness :
    import_data v2Mgr (some (export_data v2Mgr)) (fun _ _ => "m") "T" =
      Except.ok ({ data := v2Mgr.data, saves := v2Mgr.saves + 1 }, true) :=
  C4_export_import_roundtrip v2Mgr
    [("periods", PyValue.dict []), ("current_period", PyValue.null),
     ("settings", PyValue.dict [("claude_api_key", PyValue.str "")]),
     ("version", PyValue.str "2.0")]
    (fun _ _ => "m") "T" rfl rfl

/-! ### C3: the v1 → v2 migration of achievement records -/

/-- A v1 goal dict (passed through untouched by the migration). -/
def c3Goal : PyValue :=
  PyValue.dict [("id", PyValue.str "g1"), ("title", PyValue.str "Ship v1"),
    ("weight", PyValue.int 5)]

/-- A legacy document whose period has the goal `g1` but NO entry for it in
the `achievements` dict. -/
def c3OldDoc : PyValue :=
  PyValue.dict [("periods", PyValue.dict [("P", PyValue.dict
      [("goals", PyValue.list [c3Goal]), ("achievements", PyValue.dict []),
       ("created_at", PyValue.str "2023-01-01")])]),
    ("current_period", PyValue.str "P"), ("settings", PyValue.dict [])]

/-- What the migration actually produces for `c3OldDoc`: the migrated period
keeps goal `g1` but its `achievements` is the EMPTY dict — no
`{"items": [], "total_percentage": 0.0}` entry is created for `g1`. -/
def c3MigratedDoc : PyValue :=
  PyValue.dict [("periods", PyValue.dict [("P", PyValue.dict
      [("goals", PyValue.list [c3Goal]), ("achievements", PyValue.dict []),
       ("created_at", PyValue.str "2023-01-01")])]),
    ("current_period", PyValue.str "P"), ("settings", PyValue.dict []),
    ("version", PyValue.str "2.0")]

/-- C3 counterexample: the migration only iterates over the legacy
`achievements` dict, so a goal with no legacy achievement entry at all gets NO
entry in the migrated document — unlike the claim's "still ends up with an
empty-list entry". -/
theorem C3_no_entry_for_goal_without_legacy_record :
    _migrate_data_v1_to_v2 (fun _ _ => "m") "2024-01-01T00:00:00" c3OldDoc =
      Except.ok c3MigratedDoc := rfl

/-- The per-goal entries the migration builds from a legacy achievements dict
of plain strings: text that is non-empty after stripping becomes the
single-item 100% entry, anything else the empty 0% entry. -/
def migratedAchEntries (mkId : String → String → String) (now pn : String)
    (av : List (String × String)) : List (String × PyValue) :=
  av.map (fun gs => (gs.1,
    if pyStripStr gs.2 = "" then migratedEmptyEntry
    else migratedFullEntry (mkId pn gs.1) (PyValue.str gs.2) now))

theorem migrateAchValue_str (mkId : String → String → String)
    (now pn gid s : String) :
    migrateAchValue mkId now pn gid (PyValue.str s) =
      Except.ok (if pyStripStr s = "" then migratedEmptyEntry
                 else migratedFullEntry (mkId pn gid) (PyValue.str s) now) := by
  by_cases hs : s = ""
  · subst hs
    rfl
  · simp only [migrateAchValue, pyTruthy, pyStrip]
    rw [if_pos (by simpa using hs)]
    by_cases ht : pyStripStr s = ""
    · simp [ht]
    · simp [ht]

theorem mapM_migrateAch (mkId : String → String → String) (now pn : String)
    (av : List (String × String)) :
    exceptMapM
      (fun gv => (migrateAchValue mkId now pn gv.1 gv.2).map
        (fun entry => (gv.1, entry)))
      (av.map (fun gs => (gs.1, PyValue.str gs.2))) =
      Except.ok (migratedAchEntries mkId now pn av) := by
  induction av with
  | nil => rfl
  | cons hd tl ih =>
      obtain ⟨gid, s⟩ := hd
      rw [List.map_cons]
      unfold exceptMapM
      rw [migrateAchValue_str, ih]
      simp [migratedAchEntries, Except.map]

theorem dictGet_map_entries (av : List (String × String))
    (F : String × String → PyValue) (gid s : String) (hmem : (gid, s) ∈ av)
    (hnd : (av.map Prod.fst).Nodup) :
    dictGet (av.map (fun gs => (gs.1, F gs))) gid = some (F (gid, s)) := by
  induction av with
  | nil => cases hmem
  | cons hd tl ih =>
      obtain ⟨k, v⟩ := hd
      simp only [List.map_cons, List.nodup_cons] at hnd
      rcases List.mem_cons.mp hmem with heq | hmem'
      · obtain ⟨rfl, rfl⟩ := Prod.mk.injEq k v gid s ▸ And.intro (congrArg Prod.fst heq.symm) (congrArg Prod.snd heq.symm)
        simp [dictGet]
      · have hk : k ≠ gid := by
          rintro rfl
          exact hnd.1 (List.mem_map_of_mem Prod.fst hmem')
        simp only [List.map_cons, dictGet, if_neg hk]
        exact ih hmem' hnd.2

theorem keys_map_entries (av : List (String × String))
    (F : String × String → PyValue) :
    (av.map (fun gs => (gs.1, F gs))).map Prod.fst = av.map Prod.fst := by
  simp [List.map_map]

theorem migratePeriodV1_on_strings (mkId : String → String → String)
    (now pn created : String) (goalsv : PyValue) (av : List (String × String)) :
    migratePeriodV1 mkId now pn (PyValue.dict
      [("goals", goalsv),
       ("achievements", PyValue.dict (av.map (fun gs => (gs.1, PyValue.str gs.2)))),
       ("created_at", PyValue.str created)]) =
    Except.ok (PyValue.dict
      [("goals", goalsv),
       ("achievements", PyValue.dict (migratedAchEntries mkId now pn av)),
       ("created_at", PyValue.str created)]) := by
  unfold migratePeriodV1
  simp +decide only [pyGet, dictGet, pyItems, if_true, if_false, Option.getD_some]
  rw [mapM_migrateAch]

/-- C3 amended: migrating a legacy document maps exactly the entries of the
legacy `achievements` dict — text non-empty after stripping becomes one item
with `percentage = 100.0` and `total_percentage = 100.0`, empty or blank text
becomes an empty item list with `total_percentage = 0.0` — and a goal id with
NO legacy entry gets no achievements entry at all in the migrated document
(it is only created lazily later, by `get_achievements`). -/
theorem C3_migration_amended (mkId : String → String → String)
    (now pn created : String) (goalsv curv settingsv : PyValue)
    (av : List (String × String)) :
    _migrate_data_v1_to_v2 mkId now (PyValue.dict
      [("periods", PyValue.dict [(pn, PyValue.dict [("goals", goalsv), ("achievements", PyValue.dict (av.map (fun gs => (gs.1, PyValue.str gs.2)))), ("created_at", PyValue.str created)])]),
       ("current_period", curv), ("settings", settingsv)]) =
      Except.ok (PyValue.dict
        [("periods", PyValue.dict [(pn, PyValue.dict [("goals", goalsv), ("achievements", PyValue.dict (migratedAchEntries mkId now pn av)), ("created_at", PyValue.str created)])]),
         ("current_period", curv), ("settings", settingsv), ("version", PyValue.str "2.0")]) ∧
    (∀ gid s, (gid, s) ∈ av → (av.map Prod.fst).Nodup →
       dictGet (migratedAchEntries mkId now pn av) gid =
         some (if pyStripStr s = "" then migratedEmptyEntry
               else migratedFullEntry (mkId pn gid) (PyValue.str s) now)) ∧
    (∀ gid, gid ∉ av.map Prod.fst →
       dictGet (migratedAchEntries mkId now pn av) gid = none) := by
  refine ⟨?_, ?_, ?_⟩
  · unfold _migrate_data_v1_to_v2
    simp +decide only [pyGet, dictGet, pyItems, if_true, if_false, Option.getD_some]
    unfold exceptMapM
    rw [migratePeriodV1_on_strings]
    rfl
  · intro gid s hmem hnd
    exact dictGet_map_entries av _ gid s hmem hnd
  · intro gid hgid
    apply dictGet_eq_none_of_not_mem_keys
    unfold migratedAchEntries
    rw [keys_map_entries]
    exact hgid

def mkIdEx : String → String → String := fun p g => p ++ "-" ++ g

def avEx : List (String × String) := [("g1", "Shipped v1"), ("g2", ""), ("g3", "  ")]

/-- C3 witness: `"Shipped v1"` becomes the one-item 100% entry, empty and
blank strings become the empty 0% entry, and an id without a legacy entry has
no migrated entry. -/
theorem C3_migration_amended_witness :
    dictGet (migratedAchEntries mkIdEx "T" "P" avEx) "g1" =
      some (migratedFullEntry "P-g1" (PyValue.str "Shipped v1") "T") ∧
    dictGet (migratedAchEntries mkIdEx "T" "P" avEx) "g2" = some migratedEmptyEntry ∧
    dictGet (migratedAchEntries mkIdEx "T" "P" avEx) "g3" = some migratedEmptyEntry ∧
    dictGet (migratedAchEntries mkIdEx "T" "P" avEx) "gX" = none := by
  have t := C3_migration_amended mkIdEx "T" "P" "C" PyValue.null PyValue.null PyValue.null avEx
  refine ⟨?_, ?_, ?_, t.2.2 "gX" (by decide)⟩
  · have h := t.2.1 "g1" "Shipped v1" (by decide) (by decide)
    rw [if_neg (by decide)] at h
    exact h
  · have h := t.2.1 "g2" "" (by decide) (by decide)
    rw [if_pos (by decide)] at h
    exact h
  · have h := t.2.1 "g3" "  " (by decide) (by decide)
    rw [if_pos (by decide)] at h
    exact h
